import Mathlib

/-!
Shallow embedding of `src/DALIScraper.py` and verification of its
specification.

The Python script scrapes a DALI Lite results page (`scrape_page`),
filters the parsed rows by alignment-length / residue-count thresholds,
deduplication and keyword matching (`validate_proteins`, inside the loop
of `get_pdb_files`), renders a fixed-width text table, and reports a
summary line to the console (`print_results`).  The network fetch and
file writes are external I/O; here the fetched page is a `String`
argument, the written file is an `Option String` result, and a Python
exception is `none` / `Except`-style failure of the surrounding
computation.

Machine-level caveats: Python integers are unbounded, so `Int` is exact;
Python string slicing, `str.find`, `str.split()`, `str.splitlines()` and
`int(...)` are modelled by the `py*` functions below, executable and
faithful on the fragments the script relies on (slices with negative
indices clamp, `find` returns -1 when absent, `split()` drops empty
fields, `int` accepts an optional sign and decimal digits).
-/

namespace DALIScraper

/-- Does the character list `hay` start with `sub`? -/
def startsWithL : List Char → List Char → Bool
  | _, [] => true
  | [], _ :: _ => false
  | a :: t, b :: u => a == b && startsWithL t u

/-- Python `hay.find(sub) >= 0`: `sub` occurs somewhere in `hay`. -/
def containsSub : List Char → List Char → Bool
  | [], sub => sub.isEmpty
  | c :: t, sub => startsWithL (c :: t) sub || containsSub t sub

/-- Python `hay.find(sub)`: index of the first occurrence, `-1` when absent. -/
def pyFindIdx : List Char → List Char → Int
  | [], sub => if sub.isEmpty then 0 else -1
  | c :: t, sub =>
    if startsWithL (c :: t) sub then 0
    else
      let r := pyFindIdx t sub
      if r < 0 then -1 else r + 1

/-- Python `s.find(sub) >= 0` on strings. -/
def pyFind (hay sub : String) : Bool := containsSub hay.data sub.data

/-- Python `s.find(sub)` on strings. -/
def pyFindIdxS (hay sub : String) : Int := pyFindIdx hay.data sub.data

/-- Python slice `s[b:e]` (negative indices count from the end, both
ends clamp to the string's length). -/
def pySlice (s : String) (b e : Int) : String :=
  let n : Int := s.data.length
  let b' : Int := if b < 0 then max (b + n) 0 else min b n
  let e' : Int := if e < 0 then max (e + n) 0 else min e n
  String.mk ((s.data.drop b'.toNat).take (e'.toNat - b'.toNat))

/-- Decimal digits to a natural number; `none` on an empty or non-digit list. -/
def digitsToNat (cs : List Char) : Option Nat :=
  if cs.isEmpty then none
  else if cs.all Char.isDigit then
    some (cs.foldl (fun acc c => acc * 10 + (c.toNat - 48)) 0)
  else none

/-- Strip leading and trailing whitespace from a character list. -/
def pyStrip (cs : List Char) : List Char :=
  ((cs.dropWhile Char.isWhitespace).reverse.dropWhile Char.isWhitespace).reverse

/-- Python `int(s)`: optional surrounding whitespace, optional sign, decimal
digits; `none` models the `ValueError`. -/
def pyInt (s : String) : Option Int :=
  match pyStrip s.data with
  | [] => none
  | '+' :: rest => (digitsToNat rest).map (fun n => (n : Int))
  | '-' :: rest => (digitsToNat rest).map (fun n => -(n : Int))
  | cs => (digitsToNat cs).map (fun n => (n : Int))

/-- Helper for `pySplit`: accumulate the current word (reversed) while
scanning. -/
def wordsAux : List Char → List Char → List (List Char)
  | [], cur => if cur.isEmpty then [] else [cur.reverse]
  | c :: rest, cur =>
    if c.isWhitespace then
      if cur.isEmpty then wordsAux rest [] else cur.reverse :: wordsAux rest []
    else wordsAux rest (c :: cur)

/-- Python `s.split()` with no argument: split on whitespace runs,
discarding empty fields. -/
def pySplit (s : String) : List String :=
  (wordsAux s.data []).map String.mk

/-- Helper for `pySplitlines`: split on newline characters. -/
def linesAux : List Char → List Char → List (List Char)
  | [], cur => if cur.isEmpty then [] else [cur.reverse]
  | c :: rest, cur =>
    if c = '\n' then cur.reverse :: linesAux rest []
    else linesAux rest (c :: cur)

/-- Python `s.splitlines()` restricted to `\n` separators (no trailing
empty line). -/
def pySplitlines (s : String) : List String :=
  (linesAux s.data []).map String.mk

/-- Python `" ".join(l)`. -/
def joinSpace : List String → String
  | [] => ""
  | [s] => s
  | s :: rest => s ++ " " ++ joinSpace rest

/-- The `Protein` class of the script: one parsed report row
(`self._pdb_file` is only set by the external fetch and never read by the
core, so it is omitted). -/
structure Protein where
  number : Int
  pdb_id : String
  chain : String
  l_ali : Int
  n_res : Int
  description : String
deriving DecidableEq

/-- The exact header line `scrape_page` searches for (line 117 of the
script). -/
def HEADER_LINE : String :=
  "    No:  Chain   Z    rmsd lali nres  %id PDB  Description"

/-- The body of the data-row branch of `scrape_page`'s loop (lines
123-137): whitespace-split the line, decode the fixed-offset fields,
`none` models the `IndexError`/`ValueError` a malformed row raises.
Failure points appear in Python's evaluation order. -/
def parseRow (line : String) : Option Protein :=
  let split_line := pySplit line
  match split_line[14]? with
  | none => none
  | some t14 =>
    match pyInt (pySlice t14 (pyFindIdxS t14 ">" + 1) (pyFindIdxS t14 "<")) with
    | none => none
    | some number =>
      match split_line[15]? with
      | none => none
      | some t15 =>
        match split_line[18]? with
        | none => none
        | some s18 =>
          match pyInt s18 with
          | none => none
          | some l_ali =>
            match split_line[19]? with
            | none => none
            | some s19 =>
              match pyInt s19 with
              | none => none
              | some n_res =>
                some ⟨number, pySlice t15 0 4,
                      pySlice t15 (-1) t15.data.length, l_ali, n_res,
                      pySlice (joinSpace (split_line.drop 24)) 0 (-1)⟩

/-- The `for i in range(len(split_text))` loop of `scrape_page` (lines
114-142): `found` counts the header plus parsed rows, `continue` on the
header line skips the `found > max_proteins` break check, and a parse
failure aborts the whole run (`none`). -/
def scrapeLoop : List String → Int → List Protein → Int → Option (List Protein)
  | [], _, acc, _ => some acc
  | line :: rest, found, acc, maxP =>
    if found = 0 ∧ line = HEADER_LINE then
      scrapeLoop rest 1 acc maxP
    else if found > 0 then
      match parseRow line with
      | none => none
      | some p =>
        if found + 1 > maxP then some (acc ++ [p])
        else scrapeLoop rest (found + 1) (acc ++ [p]) maxP
    else
      if found > maxP then some acc else scrapeLoop rest found acc maxP

/-- `scrape_page(url, max_proteins)` with the fetched page text passed
directly (the HTTP fetch is external I/O). -/
def scrape_page (pageText : String) (max_proteins : Int) : Option (List Protein) :=
  scrapeLoop (pySplitlines pageText) 0 [] max_proteins

/-- `validate_proteins` (lines 147-165): thresholds, dedup against
`pdb_names`, then the keyword loop (`return True` on the first
description hit, `return False` otherwise). -/
def validate_proteins (protein : Protein) (pdb_names : List String)
    (l_ali_thresh n_res_thresh : Int) (description_req : List String) : Bool :=
  if protein.l_ali ≥ l_ali_thresh ∧ protein.n_res ≥ n_res_thresh
      ∧ protein.pdb_id ∉ pdb_names then
    description_req.any (fun d => pyFind protein.description d)
  else
    false

/-- One output line of the formatter (the string appended at lines
192-197). -/
def formatRow (p : Protein) : String :=
  p.pdb_id ++ "    " ++ p.chain ++ "      " ++ toString p.l_ali ++ "    "
    ++ toString p.n_res ++ "    " ++ p.description

/-- The two-line table header built at lines 179-180. -/
def headerString : String :=
  "PDB_ID  chain  l_ali  n_res  description\n------  -----  -----  -----  -----------"

/-- The `for protein in proteins` loop of `get_pdb_files` (lines
185-198), threading `pdb_names`, the `structures` string and `count`
(the `retrieve_pdb_file` call is external I/O keyed by the same accepted
identifiers). -/
def get_pdb_files_aux : List Protein → List String → String → Nat →
    Int → Int → List String → String × Nat
  | [], _, structures, count, _, _, _ => (structures, count)
  | p :: rest, pdb_names, structures, count, l, n, req =>
    if validate_proteins p pdb_names l n req then
      get_pdb_files_aux rest (pdb_names ++ [p.pdb_id])
        (structures ++ "\n" ++ formatRow p) (count + 1) l n req
    else
      get_pdb_files_aux rest pdb_names structures count l n req

/-- `get_pdb_files(proteins, l_ali_thresh, n_res_thresh, description_req,
output_dir)` minus the per-identifier fetches: the formatted table and
the accepted count. -/
def get_pdb_files (proteins : List Protein) (l_ali_thresh n_res_thresh : Int)
    (description_req : List String) : String × Nat :=
  get_pdb_files_aux proteins [] headerString 0 l_ali_thresh n_res_thresh description_req

/-- The sequence of records the filter loop of `get_pdb_files` accepts,
in acceptance order (same loop as `get_pdb_files_aux`, recording the
records instead of the rendered rows). -/
def acceptedLoop : List Protein → List String → Int → Int → List String → List Protein
  | [], _, _, _, _ => []
  | p :: rest, pdb_names, l, n, req =>
    if validate_proteins p pdb_names l n req then
      p :: acceptedLoop rest (pdb_names ++ [p.pdb_id]) l n req
    else
      acceptedLoop rest pdb_names l n req

/-- The filter's output sequence starting from an empty `pdb_names`,
exactly as `get_pdb_files` starts it. -/
def acceptedRecords (proteins : List Protein) (l n : Int) (req : List String) :
    List Protein :=
  acceptedLoop proteins [] l n req

/-- The console message of the empty branch of `print_results` (line 230). -/
def noMatchMsg : String := "No proteins were found that match your search criteria."

/-- `print_results(proteins, l_ali, n_res, desc, output_dir)` (lines
214-230): first component is the content written to
`structures_list.txt` (`none` when nothing is written), second is the
console line. -/
def print_results (proteins : List Protein) (l_ali n_res : Int)
    (desc : List String) : Option String × String :=
  if proteins.length > 0 then
    let r := get_pdb_files proteins l_ali n_res desc
    (some r.1, toString r.2 ++ " structures were found and downloaded.")
  else
    (none, noMatchMsg)

/-- `get_inputs(args)` (lines 79-96): returns, in this order,
`(url, output_dir, nres, l_ali, max_num, descs)` where `nres` is parsed
from `argv[3]` and `l_ali` from `argv[4]`; `none` models the
`IndexError`/`ValueError` of missing or non-numeric arguments. -/
def get_inputs (argv : List String) :
    Option (String × String × Int × Int × Int × List String) := do
  let url ← argv.get? 1
  let output_dir ← argv.get? 2
  let nres ← pyInt (← argv.get? 3)
  let l_ali ← pyInt (← argv.get? 4)
  let max_num ← pyInt (← argv.get? 5)
  some (url, output_dir, nres, l_ali, max_num, argv.drop 6)

/-- The module-level statements (lines 233-235).  Note the faithful
positional destructuring: line 233 reads
`url, output_dir, l_ali, n_res, max_num, desc = get_inputs(sys)`
while `get_inputs` returns `(url, output_dir, nres, l_ali, max_num,
descs)`, so the module variable `l_ali` receives the value parsed from
`argv[3]` and `n_res` the value parsed from `argv[4]`. -/
def moduleMain (argv : List String) (pageText : String) :
    Option (Option String × String) := do
  let (_url, _output_dir, l_ali, n_res, max_num, desc) ← get_inputs argv
  let proteins ← scrape_page pageText max_num
  some (print_results proteins l_ali n_res desc)

/-- Specification-side substring relation: `sub` occurs contiguously in
`s` (case-sensitive, unanchored). -/
def OccursIn (sub s : String) : Prop :=
  ∃ pre post : List Char, s.data = pre ++ sub.data ++ post

/-- A record individually satisfies the thresholds and the keyword test
(everything in `validate_proteins` except the dedup check). -/
def indQual (l n : Int) (req : List String) (p : Protein) : Bool :=
  decide (p.l_ali ≥ l) && decide (p.n_res ≥ n)
    && req.any (fun d => pyFind p.description d)

/-- First-occurrence deduplication by `pdb_id` against an already-seen
list: the reference shape of the accepted sequence. -/
def keepFirsts : List String → List Protein → List Protein
  | _, [] => []
  | seen, p :: rest =>
    if p.pdb_id ∈ seen then keepFirsts seen rest
    else p :: keepFirsts (seen ++ [p.pdb_id]) rest

/-- A well-formed example row of the report (spec §8's example: rank
markup `...>3<...`, identifier token `1ABCd`, alignment 320, residues
310, description `Histone deacetylase;`). -/
def demoRow : String :=
  "x x x x x x x x x x x x x x href=q>3</a> 1ABCd x x 320 310 x x x x Histone deacetylase;"

/-- A page consisting of the header line followed by `demoRow`. -/
def demoText : String := HEADER_LINE ++ "\n" ++ demoRow

/-- The record `demoRow` decodes to. -/
def demoRec : Protein := ⟨3, "1ABC", "d", 320, 310, "Histone deacetylase"⟩

/-- Like `demoRow` but the identifier token is the 3-character `1AB`. -/
def shortIdRow : String :=
  "x x x x x x x x x x x x x x href=q>3</a> 1AB x x 320 310 x x x x Histone deacetylase;"

/-- Header followed by `shortIdRow`. -/
def shortIdText : String := HEADER_LINE ++ "\n" ++ shortIdRow

/-- Like `demoRow` but the residue-count token is the non-numeric `zz`. -/
def badNresRow : String :=
  "x x x x x x x x x x x x x x href=q>3</a> 1ABCd x x 320 zz x x x x Histone deacetylase;"

/-- Header followed by `badNresRow`. -/
def badNresText : String := HEADER_LINE ++ "\n" ++ badNresRow

/-- A second well-formed row with a different identifier. -/
def row2 : String :=
  "x x x x x x x x x x x x x x href=q>4</a> 2XYZe 1 2 400 410 5 6 7 8 Kinase domain;"

/-- The record `row2` decodes to. -/
def rec2 : Protein := ⟨4, "2XYZ", "e", 400, 410, "Kinase domain"⟩

/-- Header followed by two well-formed rows. -/
def twoRowText : String := HEADER_LINE ++ "\n" ++ demoRow ++ "\n" ++ row2

/-- A concrete argument vector: minimum residue count 300 (third
parameter), minimum alignment length 200 (fourth). -/
def c3argv : List String :=
  ["DALIScraper.py", "http://u", "/out", "300", "200", "7", "Histone"]

/-- A row whose alignment length 350 is large but whose residue count
250 is below the 300 of `c3argv`. -/
def c3row : String :=
  "x x x x x x x x x x x x x x href=q>3</a> 1ABCd x x 350 250 x x x x Histone deacetylase;"

/-- Header followed by `c3row`. -/
def c3text : String := HEADER_LINE ++ "\n" ++ c3row

/-- Two qualifying records sharing the `pdb_id` `1ABC`. -/
def dupA : Protein := ⟨1, "1ABC", "a", 400, 400, "Histone x"⟩

/-- Second record with the same `pdb_id` as `dupA`. -/
def dupB : Protein := ⟨2, "1ABC", "b", 500, 500, "Histone y"⟩

/-! ## Helper lemmas -/

lemma startsWithL_iff (hay sub : List Char) :
    startsWithL hay sub = true ↔ ∃ rest, hay = sub ++ rest := by
  induction sub generalizing hay with
  | nil =>
    constructor
    · intro _; exact ⟨hay, rfl⟩
    · intro _; cases hay <;> rfl
  | cons b u ih =>
    cases hay with
    | nil =>
      constructor
      · intro h; simp [startsWithL] at h
      · rintro ⟨rest, h⟩; simp at h
    | cons a t =>
      constructor
      · intro h
        rw [startsWithL, Bool.and_eq_true, beq_iff_eq] at h
        obtain ⟨rest, hr⟩ := (ih t).mp h.2
        exact ⟨rest, by simp [h.1, hr]⟩
      · rintro ⟨rest, hr⟩
        simp only [List.cons_append] at hr
        injection hr with h1 h2
        rw [startsWithL, Bool.and_eq_true, beq_iff_eq]
        exact ⟨h1, (ih t).mpr ⟨rest, h2⟩⟩

lemma containsSub_iff (hay sub : List Char) :
    containsSub hay sub = true ↔ ∃ pre post, hay = pre ++ sub ++ post := by
  induction hay with
  | nil =>
    rw [containsSub, List.isEmpty_iff]
    constructor
    · intro h; exact ⟨[], [], by simp [h]⟩
    · rintro ⟨pre, post, h⟩
      have h' : (pre ++ sub) ++ post = [] := h.symm
      rw [List.append_eq_nil] at h'
      exact (List.append_eq_nil.mp h'.1).2
  | cons c t ih =>
    rw [containsSub, Bool.or_eq_true, startsWithL_iff, ih]
    constructor
    · rintro (⟨rest, hr⟩ | ⟨pre, post, h⟩)
      · exact ⟨[], rest, by simp [hr]⟩
      · exact ⟨c :: pre, post, by simp [h]⟩
    · rintro ⟨pre, post, h⟩
      cases pre with
      | nil => exact Or.inl ⟨post, by simpa using h⟩
      | cons x pre =>
        simp only [List.cons_append] at h
        injection h with h1 h2
        exact Or.inr ⟨pre, post, h2⟩

lemma pyFind_iff (hay sub : String) : pyFind hay sub = true ↔ OccursIn sub hay :=
  containsSub_iff hay.data sub.data

lemma validate_proteins_eq (p : Protein) (names : List String) (l n : Int)
    (req : List String) :
    validate_proteins p names l n req
      = (indQual l n req p && !(decide (p.pdb_id ∈ names))) := by
  unfold validate_proteins indQual
  by_cases h1 : p.l_ali ≥ l <;> by_cases h2 : p.n_res ≥ n <;>
    by_cases h3 : p.pdb_id ∈ names <;>
      simp [h1, h2, h3]

lemma validate_nil_req (p : Protein) (names : List String) (l n : Int) :
    validate_proteins p names l n [] = false := by
  unfold validate_proteins
  split <;> rfl

lemma acceptedLoop_eq (ps : List Protein) (l n : Int) (req : List String) :
    ∀ seen, acceptedLoop ps seen l n req
      = keepFirsts seen (ps.filter (indQual l n req)) := by
  induction ps with
  | nil => intro seen; rfl
  | cons p rest ih =>
    intro seen
    rw [acceptedLoop, List.filter_cons, validate_proteins_eq]
    cases hq : indQual l n req p with
    | false => simp [hq, ih]
    | true =>
      by_cases hm : p.pdb_id ∈ seen
      · simp [hq, hm, keepFirsts, ih]
      · simp [hq, hm, keepFirsts, ih]

lemma mem_map_keepFirsts (x : String) (ps : List Protein) :
    ∀ seen, x ∈ (keepFirsts seen ps).map Protein.pdb_id
      ↔ x ∈ ps.map Protein.pdb_id ∧ x ∉ seen := by
  induction ps with
  | nil => intro seen; simp [keepFirsts]
  | cons p rest ih =>
    intro seen
    by_cases hm : p.pdb_id ∈ seen
    · rw [keepFirsts, if_pos hm, ih]
      simp only [List.map_cons, List.mem_cons]
      constructor
      · rintro ⟨h1, h2⟩; exact ⟨Or.inr h1, h2⟩
      · rintro ⟨h1 | h1, h2⟩
        · rw [h1] at h2; exact absurd hm h2
        · exact ⟨h1, h2⟩
    · rw [keepFirsts, if_neg hm]
      simp only [List.map_cons, List.mem_cons, ih, List.mem_append,
        List.mem_singleton]
      constructor
      · rintro (h | ⟨h1, h2⟩)
        · exact ⟨Or.inl h, by rw [h]; exact hm⟩
        · exact ⟨Or.inr h1, fun hx => h2 (Or.inl hx)⟩
      · rintro ⟨h1 | h1, h2⟩
        · exact Or.inl h1
        · by_cases hx : x = p.pdb_id
          · exact Or.inl hx
          · exact Or.inr ⟨h1, fun hc =>
              hc.elim h2 (fun h => h.elim hx (fun hf => (List.not_mem_nil x) hf))⟩

lemma nodup_keepFirsts (ps : List Protein) :
    ∀ seen, ((keepFirsts seen ps).map Protein.pdb_id).Nodup := by
  induction ps with
  | nil => intro seen; simp [keepFirsts]
  | cons p rest ih =>
    intro seen
    by_cases hm : p.pdb_id ∈ seen
    · rw [keepFirsts, if_pos hm]; exact ih seen
    · rw [keepFirsts, if_neg hm]
      simp only [List.map_cons, List.nodup_cons]
      refine ⟨?_, ih _⟩
      intro hmem
      have h := (mem_map_keepFirsts _ _ _).mp hmem
      exact h.2 (by simp)

lemma find?_mem_keepFirsts (ps : List Protein) (x : String) :
    ∀ seen, x ∉ seen → (∃ p ∈ ps, p.pdb_id = x) →
      ∃ q, ps.find? (fun r => r.pdb_id == x) = some q
        ∧ q ∈ keepFirsts seen ps := by
  induction ps with
  | nil => intro seen _ hmem; simp at hmem
  | cons p rest ih =>
    intro seen hx hmem
    by_cases hp : p.pdb_id = x
    · refine ⟨p, ?_, ?_⟩
      · rw [List.find?_cons_of_pos _ (by simp [hp])]
      · rw [keepFirsts, if_neg (by rw [hp]; exact hx)]
        exact List.mem_cons_self _ _
    · have hmem' : ∃ q ∈ rest, q.pdb_id = x := by
        obtain ⟨q, hq, hqx⟩ := hmem
        rcases List.mem_cons.mp hq with h | h
        · rw [h] at hqx; exact absurd hqx hp
        · exact ⟨q, h, hqx⟩
      rw [List.find?_cons_of_neg _ (by simp [hp])]
      by_cases hm : p.pdb_id ∈ seen
      · rw [keepFirsts, if_pos hm]
        exact ih seen hx hmem'
      · rw [keepFirsts, if_neg hm]
        obtain ⟨q, hfind, hq⟩ := ih (seen ++ [p.pdb_id])
          (by
            intro hcon
            rcases List.mem_append.mp hcon with h | h
            · exact hx h
            · exact hp (List.mem_singleton.mp h).symm)
          hmem'
        exact ⟨q, hfind, List.mem_cons_of_mem _ hq⟩

lemma find?_filter_eq {α : Type} (l : List α) (q p : α → Bool) :
    (l.filter q).find? p = l.find? (fun a => q a && p a) := by
  induction l with
  | nil => rfl
  | cons a t ih =>
    by_cases hq : q a = true
    · rw [List.filter_cons, if_pos hq]
      by_cases hp : p a = true
      · rw [List.find?_cons_of_pos _ hp, List.find?_cons_of_pos _ (by simp [hq, hp])]
      · rw [List.find?_cons_of_neg _ hp, List.find?_cons_of_neg _ (by simp [hq, hp]), ih]
    · rw [List.filter_cons, if_neg hq, ih, List.find?_cons_of_neg _ (by simp [hq])]

lemma get_pdb_files_aux_snd (ps : List Protein) (l n : Int) (req : List String) :
    ∀ (names : List String) (s : String) (c : Nat),
      (get_pdb_files_aux ps names s c l n req).2
        = c + (acceptedLoop ps names l n req).length := by
  induction ps with
  | nil => intro names s c; simp [get_pdb_files_aux, acceptedLoop]
  | cons p rest ih =>
    intro names s c
    rw [get_pdb_files_aux, acceptedLoop]
    by_cases hv : validate_proteins p names l n req = true
    · rw [if_pos hv, if_pos hv, ih]
      simp only [List.length_cons]
      omega
    · rw [if_neg hv, if_neg hv, ih]

lemma get_pdb_files_aux_fst (ps : List Protein) (l n : Int) (req : List String) :
    ∀ (names : List String) (s : String) (c : Nat),
      (get_pdb_files_aux ps names s c l n req).1
        = (acceptedLoop ps names l n req).foldl
            (fun acc p => acc ++ "\n" ++ formatRow p) s := by
  induction ps with
  | nil => intro names s c; simp [get_pdb_files_aux, acceptedLoop]
  | cons p rest ih =>
    intro names s c
    rw [get_pdb_files_aux, acceptedLoop]
    by_cases hv : validate_proteins p names l n req = true
    · rw [if_pos hv, if_pos hv, ih, List.foldl_cons]
    · rw [if_neg hv, if_neg hv, ih]

lemma get_pdb_files_aux_nil_req (ps : List Protein) (l n : Int) :
    ∀ (names : List String) (s : String) (c : Nat),
      get_pdb_files_aux ps names s c l n [] = (s, c) := by
  induction ps with
  | nil => intro names s c; rfl
  | cons p rest ih =>
    intro names s c
    rw [get_pdb_files_aux, validate_nil_req, if_neg Bool.false_ne_true]
    exact ih names s c

lemma acceptedLoop_nil_req (ps : List Protein) (l n : Int) :
    ∀ names : List String, acceptedLoop ps names l n [] = [] := by
  induction ps with
  | nil => intro names; rfl
  | cons p rest ih =>
    intro names
    rw [acceptedLoop, validate_nil_req, if_neg Bool.false_ne_true]
    exact ih names

lemma indQual_mono {l lHi n nHi : Int} (req : List String) (p : Protein)
    (hl : l ≤ lHi) (hn : n ≤ nHi) (h : indQual lHi nHi req p = true) :
    indQual l n req p = true := by
  unfold indQual at h ⊢
  simp only [Bool.and_eq_true, decide_eq_true_eq] at h ⊢
  exact ⟨⟨le_trans hl h.1.1, le_trans hn h.1.2⟩, h.2⟩

lemma acceptedRecords_length_mono (proteins : List Protein) (req : List String)
    {l lHi n nHi : Int} (hl : l ≤ lHi) (hn : n ≤ nHi) :
    (acceptedRecords proteins lHi nHi req).length
      ≤ (acceptedRecords proteins l n req).length := by
  have key : ((acceptedRecords proteins lHi nHi req).map Protein.pdb_id).length
      ≤ ((acceptedRecords proteins l n req).map Protein.pdb_id).length := by
    apply List.Subperm.length_le
    apply List.Nodup.subperm
    · rw [acceptedRecords, acceptedLoop_eq]
      exact nodup_keepFirsts _ _
    · intro x hx
      rw [acceptedRecords, acceptedLoop_eq] at hx ⊢
      rw [mem_map_keepFirsts] at hx ⊢
      refine ⟨?_, hx.2⟩
      obtain ⟨p, hp, hpx⟩ := List.mem_map.mp hx.1
      have hpf := List.mem_filter.mp hp
      exact List.mem_map.mpr
        ⟨p, List.mem_filter.mpr ⟨hpf.1, indQual_mono req p hl hn hpf.2⟩, hpx⟩
  simpa using key

lemma length_filterMap_of_isSome {α β : Type} (f : α → Option β) (l : List α)
    (h : ∀ a ∈ l, (f a).isSome) : (l.filterMap f).length = l.length := by
  induction l with
  | nil => rfl
  | cons a t ih =>
    obtain ⟨b, hb⟩ := Option.isSome_iff_exists.mp (h a (List.mem_cons_self _ _))
    rw [List.filterMap_cons, hb]
    simp only [List.length_cons]
    rw [ih (fun x hx => h x (List.mem_cons_of_mem _ hx))]

lemma scrapeLoop_no_header (maxP : Int) :
    ∀ lines : List String, HEADER_LINE ∉ lines →
      scrapeLoop lines 0 [] maxP = some [] := by
  intro lines
  induction lines with
  | nil => intro _; rfl
  | cons line rest ih =>
    intro h
    have hline : ¬(line = HEADER_LINE) :=
      fun hl => h (by rw [hl]; exact List.mem_cons_self _ _)
    rw [scrapeLoop, if_neg (fun hc => hline hc.2), if_neg (by omega)]
    split
    · rfl
    · exact ih (fun hm => h (List.mem_cons_of_mem _ hm))

lemma scrapeLoop_pre (maxP : Int) (hmax : 0 ≤ maxP) (restLines : List String)
    (acc : List Protein) :
    ∀ pre : List String, HEADER_LINE ∉ pre →
      scrapeLoop (pre ++ HEADER_LINE :: restLines) 0 acc maxP
        = scrapeLoop restLines 1 acc maxP := by
  intro pre
  induction pre with
  | nil =>
    intro _
    rw [List.nil_append, scrapeLoop, if_pos ⟨rfl, rfl⟩]
  | cons line pre ih =>
    intro h
    have hline : ¬(line = HEADER_LINE) :=
      fun hl => h (by rw [hl]; exact List.mem_cons_self _ _)
    rw [List.cons_append, scrapeLoop, if_neg (fun hc => hline hc.2),
      if_neg (by omega), if_neg (by omega)]
    exact ih (fun hm => h (List.mem_cons_of_mem _ hm))

lemma scrapeLoop_rows (maxP : Int) :
    ∀ (rows : List String) (found : Int) (acc : List Protein),
      (∀ r ∈ rows, (parseRow r).isSome) → 1 ≤ found → found ≤ maxP →
      scrapeLoop rows found acc maxP
        = some (acc ++ (rows.take (maxP - found + 1).toNat).filterMap parseRow) := by
  intro rows
  induction rows with
  | nil =>
    intro found acc _ _ _
    simp [scrapeLoop]
  | cons r rest ih =>
    intro found acc hall h1 h2
    obtain ⟨p, hp⟩ := Option.isSome_iff_exists.mp (hall r (List.mem_cons_self _ _))
    rw [scrapeLoop, if_neg (fun hc => absurd hc.1 (by omega)), if_pos (by omega)]
    simp only [hp]
    by_cases hbr : found + 1 > maxP
    · rw [if_pos hbr]
      have ht : (maxP - found + 1).toNat = 1 := by omega
      rw [ht]
      simp [List.filterMap_cons, hp]
    · rw [if_neg hbr]
      rw [ih (found + 1) (acc ++ [p])
        (fun x hx => hall x (List.mem_cons_of_mem _ hx)) (by omega) (by omega)]
      have ht : (maxP - found + 1).toNat = (maxP - (found + 1) + 1).toNat + 1 := by
        omega
      rw [ht, List.take_succ_cons]
      simp [List.filterMap_cons, hp]

lemma scrapeLoop_abort (maxP : Int) (row : String) (rest : List String)
    (hrow : parseRow row = none) :
    ∀ (rows₁ : List String) (found : Int) (acc : List Protein),
      (∀ r ∈ rows₁, (parseRow r).isSome) → 1 ≤ found →
      found + (rows₁.length : Int) ≤ maxP →
      scrapeLoop (rows₁ ++ row :: rest) found acc maxP = none := by
  intro rows₁
  induction rows₁ with
  | nil =>
    intro found acc _ h1 _
    rw [List.nil_append, scrapeLoop, if_neg (fun hc => absurd hc.1 (by omega)),
      if_pos (by omega), hrow]
  | cons r rs ih =>
    intro found acc hall h1 h2
    obtain ⟨p, hp⟩ := Option.isSome_iff_exists.mp (hall r (List.mem_cons_self _ _))
    have hlen : found + 1 + (rs.length : Int) ≤ maxP := by
      simp only [List.length_cons] at h2
      push_cast at h2 ⊢
      omega
    rw [List.cons_append, scrapeLoop, if_neg (fun hc => absurd hc.1 (by omega)),
      if_pos (by omega)]
    simp only [hp]
    rw [if_neg (by omega)]
    exact ih (found + 1) (acc ++ [p])
      (fun x hx => hall x (List.mem_cons_of_mem _ hx)) (by omega) hlen

lemma parseRow_short : ∀ line : String, (pySplit line).length ≤ 19 →
    parseRow line = none := by
  intro line h
  have h19 : (pySplit line)[19]? = none := List.getElem?_eq_none h
  cases h14 : (pySplit line)[14]? with
  | none => simp [parseRow, h14]
  | some t14 =>
    cases hnum : pyInt (pySlice t14 (pyFindIdxS t14 ">" + 1) (pyFindIdxS t14 "<")) with
    | none => simp [parseRow, h14, hnum]
    | some num =>
      cases h15 : (pySplit line)[15]? with
      | none => simp [parseRow, h14, hnum, h15]
      | some t15 =>
        cases h18 : (pySplit line)[18]? with
        | none => simp [parseRow, h14, hnum, h15, h18]
        | some s18 =>
          cases hi18 : pyInt s18 with
          | none => simp [parseRow, h14, hnum, h15, h18, hi18]
          | some la => simp [parseRow, h14, hnum, h15, h18, hi18, h19]

/-! ## Claims -/

/-- Claim C1: a candidate record is accepted by `validate_proteins` if
and only if `alignment_length >= min_alignment_length`, `residue_count
>= min_residue_count`, its `structure_id` is not already in the accepted
set, and its description contains at least one required keyword as a
case-sensitive unanchored substring; in particular the description
`Histone deacetylase` fails the keyword `HISTONE` but passes `Histone`. -/
theorem claim_C1 :
    (∀ (p : Protein) (names : List String) (l n : Int) (req : List String),
        validate_proteins p names l n req = true ↔
          (p.l_ali ≥ l ∧ p.n_res ≥ n ∧ p.pdb_id ∉ names ∧
            ∃ kw ∈ req, OccursIn kw p.description))
    ∧ validate_proteins demoRec [] 300 300 ["HISTONE"] = false
    ∧ validate_proteins demoRec [] 300 300 ["Histone"] = true := by
  refine ⟨?_, by decide, by decide⟩
  intro p names l n req
  rw [validate_proteins_eq]
  simp only [Bool.and_eq_true, indQual, Bool.not_eq_true', decide_eq_false_iff_not,
    decide_eq_true_eq, List.any_eq_true, pyFind_iff]
  tauto

/-- Claim C2 counterexample: with maximum candidate count 0 and one
well-formed row after the header, parsing returns one record, not
`min(1, 0) = 0` (the `continue` on the header line skips the break
check, so one row is always parsed). -/
theorem claim_C2_cex :
    (scrape_page demoText 0).map List.length = some 1 ∧ min 1 0 = 0 :=
  ⟨by decide, by decide⟩

/-- Claim C2 (amended to `max_n ≥ 1`): for every report text whose lines
are a header-free preamble, the header-marker line, then N well-formed
data rows, and every maximum candidate count `max_n ≥ 1`, parsing
returns exactly `min(N, max_n)` records, in the order the rows appear. -/
theorem claim_C2_amended (text : String) (pre rows : List String) (maxP : Int)
    (hsplit : pySplitlines text = pre ++ HEADER_LINE :: rows)
    (hpre : HEADER_LINE ∉ pre)
    (hrows : ∀ r ∈ rows, (parseRow r).isSome)
    (hmax : 1 ≤ maxP) :
    scrape_page text maxP = some ((rows.take maxP.toNat).filterMap parseRow)
    ∧ (scrape_page text maxP).map List.length
        = some (min rows.length maxP.toNat) := by
  have h1 : scrape_page text maxP = scrapeLoop rows 1 [] maxP := by
    rw [scrape_page, hsplit]
    exact scrapeLoop_pre maxP (by omega) rows [] pre hpre
  have h2 := scrapeLoop_rows maxP rows 1 [] hrows (by omega) hmax
  have ht : (maxP - 1 + 1).toNat = maxP.toNat := by omega
  rw [ht, List.nil_append] at h2
  refine ⟨h1.trans h2, ?_⟩
  rw [h1, h2]
  simp only [Option.map_some']
  congr 1
  rw [length_filterMap_of_isSome _ _ (fun r hr => hrows r (List.take_subset _ _ hr)),
    List.length_take]
  omega

/-- Witness for the amended C2 at a concrete two-row report with cap 1. -/
theorem claim_C2_amended_witness :
    scrape_page twoRowText 1
        = some (([demoRow, row2].take (1 : Int).toNat).filterMap parseRow)
    ∧ (scrape_page twoRowText 1).map List.length
        = some (min ([demoRow, row2] : List String).length (1 : Int).toNat) :=
  claim_C2_amended twoRowText [] [demoRow, row2] 1 (by decide) (by decide)
    (by decide) (by decide)

/-- Claim C3 fails on the code (the code contradicts its own docstring):
line 233 destructures `get_inputs`'s return value in the wrong order, so
the third invocation parameter (minimum residue count, here 300) becomes
the threshold compared against `l_ali`, and the fourth (minimum
alignment length, here 200) is compared against `n_res`.  A record with
`n_res = 250 < 300` is accepted and counted as downloaded. -/
theorem claim_C3_bug :
    (moduleMain c3argv c3text).map (fun r => (r.1.isSome, r.2))
        = some (true, "1 structures were found and downloaded.")
    ∧ (scrape_page c3text 7).map (List.map Protein.n_res) = some [250]
    ∧ get_inputs c3argv = some ("http://u", "/out", 300, 200, 7, ["Histone"])
    ∧ (250 : Int) < 300 :=
  ⟨by decide, by decide, rfl, by decide⟩

/-- Claim C4: the filter's output sequence never contains two records
with the same `structure_id`, and for every record that individually
satisfies the thresholds and keyword test, the earliest
individually-qualifying record with its `structure_id` is the one in the
output (later duplicates are skipped). -/
theorem claim_C4 (proteins : List Protein) (l n : Int) (req : List String) :
    ((acceptedRecords proteins l n req).map Protein.pdb_id).Nodup
    ∧ ∀ p ∈ proteins, indQual l n req p = true →
        ∃ q, proteins.find? (fun r => indQual l n req r && r.pdb_id == p.pdb_id)
              = some q
          ∧ q ∈ acceptedRecords proteins l n req := by
  constructor
  · rw [acceptedRecords, acceptedLoop_eq]
    exact nodup_keepFirsts _ _
  · intro p hp hq
    obtain ⟨q, hfind, hqmem⟩ :=
      find?_mem_keepFirsts (proteins.filter (indQual l n req)) p.pdb_id []
        (by simp) ⟨p, List.mem_filter.mpr ⟨hp, hq⟩, rfl⟩
    refine ⟨q, ?_, ?_⟩
    · rw [find?_filter_eq] at hfind
      exact hfind
    · rw [acceptedRecords, acceptedLoop_eq]
      exact hqmem

/-- Witness for C4 at two qualifying records sharing a `structure_id`. -/
theorem claim_C4_witness :
    ((acceptedRecords [dupA, dupB] 0 0 ["Histone"]).map Protein.pdb_id).Nodup
    ∧ ∃ q, [dupA, dupB].find?
          (fun r => indQual 0 0 ["Histone"] r && r.pdb_id == dupB.pdb_id) = some q
        ∧ q ∈ acceptedRecords [dupA, dupB] 0 0 ["Histone"] :=
  ⟨(claim_C4 [dupA, dupB] 0 0 ["Histone"]).1,
   (claim_C4 [dupA, dupB] 0 0 ["Histone"]).2 dupB (by decide) (by decide)⟩

/-- Claim C5 counterexample: a row whose identifier token `1AB` has
fewer than 5 characters does NOT raise a malformed-row error; Python
slicing is total, so the row parses with `structure_id = "1AB"` and
`chain_id = "B"`. -/
theorem claim_C5_cex :
    scrape_page shortIdText 300
      = some [⟨3, "1AB", "B", 320, 310, "Histone deacetylase"⟩] := by
  decide

/-- Claim C5 (amended: the short-identifier clause is dropped): a data
row with fewer tokens than the highest required offset, or with
non-numeric content where an integer is expected, is a fatal
malformed-row error that aborts the whole run, and no output file is
written (the module aborts before `print_results`). -/
theorem claim_C5_amended :
    (∀ line : String, (pySplit line).length ≤ 19 → parseRow line = none)
    ∧ parseRow badNresRow = none
    ∧ (∀ (text : String) (pre rows₁ : List String) (row : String)
          (rest : List String) (maxP : Int),
        pySplitlines text = pre ++ HEADER_LINE :: (rows₁ ++ row :: rest) →
        HEADER_LINE ∉ pre → (∀ r ∈ rows₁, (parseRow r).isSome) →
        parseRow row = none → 1 ≤ maxP → (rows₁.length : Int) < maxP →
        scrape_page text maxP = none)
    ∧ (∀ (argv : List String) (pageText u o : String) (a3 a4 a5 : Int)
          (ds : List String),
        get_inputs argv = some (u, o, a3, a4, a5, ds) →
        scrape_page pageText a5 = none →
        moduleMain argv pageText = none) := by
  refine ⟨parseRow_short, by decide, ?_, ?_⟩
  · intro text pre rows₁ row rest maxP hsplit hpre hall hrow hmax hlen
    rw [scrape_page, hsplit, scrapeLoop_pre maxP (by omega) _ [] pre hpre]
    exact scrapeLoop_abort maxP row rest hrow rows₁ 1 [] hall (by omega) (by omega)
  · intro argv pageText u o a3 a4 a5 ds hinp hsc
    simp [moduleMain, hinp, hsc]

/-- Witness for the amended C5: a short row, a report whose single data
row has a non-numeric residue count, and the module abort on it. -/
theorem claim_C5_amended_witness :
    parseRow "a b" = none
    ∧ scrape_page badNresText 5 = none
    ∧ moduleMain c3argv badNresText = none :=
  ⟨claim_C5_amended.1 "a b" (by decide),
   claim_C5_amended.2.2.1 badNresText [] [] badNresRow [] 5 (by decide) (by decide)
     (by decide) (by decide) (by decide) (by decide),
   claim_C5_amended.2.2.2 c3argv badNresText "http://u" "/out" 300 200 7
     ["Histone"] rfl (by decide)⟩

/-- Claim C6: for every input text in which the header-marker line never
occurs exactly as one of its lines, parsing returns an empty record
sequence and signals no error. -/
theorem claim_C6 (text : String) (maxP : Int)
    (h : HEADER_LINE ∉ pySplitlines text) :
    scrape_page text maxP = some [] :=
  scrapeLoop_no_header maxP (pySplitlines text) h

/-- Witness for C6 on a concrete header-free text. -/
theorem claim_C6_witness : scrape_page "hello\nworld" 5 = some [] :=
  claim_C6 "hello\nworld" 5 (by decide)

/-- Claim C7 counterexample: with a non-empty parsed sequence and zero
survivors the formatter does emit the bare two-line header, but the
console prints the zero download count, not the "No proteins were
found..." message. -/
theorem claim_C7_cex :
    print_results [demoRec] 300 300 ["Kinase"]
        = (some headerString, "0 structures were found and downloaded.")
    ∧ "0 structures were found and downloaded." ≠ noMatchMsg :=
  ⟨by decide, by decide⟩

/-- Claim C7 (amended): whenever the parsed sequence is non-empty but
zero records survive filtering, the formatter emits exactly the two-line
header with no data rows and the console reports the download count
`0 structures were found and downloaded.`; the `No proteins were
found...` message appears only when the parsed sequence is empty. -/
theorem claim_C7_amended :
    (∀ (proteins : List Protein) (l n : Int) (req : List String),
        0 < proteins.length → acceptedRecords proteins l n req = [] →
        print_results proteins l n req
          = (some headerString, "0 structures were found and downloaded."))
    ∧ ∀ (l n : Int) (req : List String),
        print_results [] l n req = (none, noMatchMsg) := by
  constructor
  · intro proteins l n req hlen hacc
    have h1 : (get_pdb_files proteins l n req).1 = headerString := by
      rw [get_pdb_files, get_pdb_files_aux_fst]
      rw [show acceptedLoop proteins [] l n req
            = acceptedRecords proteins l n req from rfl, hacc]
      rfl
    have h2 : (get_pdb_files proteins l n req).2 = 0 := by
      rw [get_pdb_files, get_pdb_files_aux_snd]
      rw [show acceptedLoop proteins [] l n req
            = acceptedRecords proteins l n req from rfl, hacc]
      rfl
    rw [print_results, if_pos hlen]
    simp only [h1, h2]
    rfl
  · intro l n req
    rfl

/-- Witness for the amended C7 at a record failing both thresholds. -/
theorem claim_C7_amended_witness :
    print_results [demoRec] 1000 1000 ["Histone"]
      = (some headerString, "0 structures were found and downloaded.") :=
  claim_C7_amended.1 [demoRec] 1000 1000 ["Histone"] (by decide) (by decide)

/-- Claim C8: for a fixed input sequence and keyword set, raising the
alignment-length threshold or the residue-count threshold never
increases the accepted count produced by the filter. -/
theorem claim_C8 (proteins : List Protein) (req : List String)
    {l lHi n nHi : Int} (hl : l ≤ lHi) (hn : n ≤ nHi) :
    (get_pdb_files proteins lHi nHi req).2
      ≤ (get_pdb_files proteins l n req).2 := by
  rw [get_pdb_files, get_pdb_files, get_pdb_files_aux_snd, get_pdb_files_aux_snd]
  simpa [acceptedRecords] using acceptedRecords_length_mono proteins req hl hn

/-- Witness for C8 at concrete raised thresholds. -/
theorem claim_C8_witness :
    (get_pdb_files [demoRec] 321 311 ["Histone"]).2
      ≤ (get_pdb_files [demoRec] 300 300 ["Histone"]).2 :=
  claim_C8 [demoRec] ["Histone"] (by decide) (by decide)

/-- Claim C9: the header plus the example row (rank markup `...>3<...`,
identifier token `1ABCd`, alignment 320, residues 310, description
tokens `Histone deacetylase;`) parses to the single record with
`structure_id = "1ABC"`, `chain_id = "d"`, `alignment_length = 320`,
`residue_count = 310`, `description = "Histone deacetylase"` (trailing
`;` stripped), and filtering it with thresholds 300/300 and keyword
`Histone` accepts exactly that record. -/
theorem claim_C9 :
    scrape_page demoText 300 = some [demoRec]
    ∧ acceptedRecords [demoRec] 300 300 ["Histone"] = [demoRec]
    ∧ (get_pdb_files [demoRec] 300 300 ["Histone"]).2 = 1
    ∧ demoRec = ⟨3, "1ABC", "d", 320, 310, "Histone deacetylase"⟩ :=
  ⟨by decide, by decide, by decide, rfl⟩

/-- Claim C10: with an empty required-keywords list `validate_proteins`
returns `False` for every record and thresholds, so the filter accepts
nothing: the accepted sequence is empty, the rendered table is the bare
header and the count is zero. -/
theorem claim_C10 :
    (∀ (p : Protein) (names : List String) (l n : Int),
        validate_proteins p names l n [] = false)
    ∧ (∀ (proteins : List Protein) (l n : Int),
        acceptedRecords proteins l n [] = [])
    ∧ (∀ (proteins : List Protein) (l n : Int),
        get_pdb_files proteins l n [] = (headerString, 0)) :=
  ⟨fun p names l n => validate_nil_req p names l n,
   fun proteins l n => acceptedLoop_nil_req proteins l n [],
   fun proteins l n => get_pdb_files_aux_nil_req proteins l n [] headerString 0⟩

end DALIScraper
